import Mathlib

/-
Verification of the dsp_go digital signal processing library: a shallow
embedding of the FIR convolver, the IIR recursive filter (with its design
factories, stability check and frequency response) and the Goertzel
single-frequency detector, together with proofs of the specified
properties.

Numbers: Go float64 arithmetic is modelled as exact arithmetic in a
linear ordered field (instantiated at the rationals for executable
checks and at the reals where trigonometric functions are involved).
Fallible Go functions are modelled with explicit result types; a Go
panic is modelled as a distinguished outcome, separate from a returned
error value.
-/

namespace DSP

/-- Error values returned by the Go code (payload fields that only carry
reporting data are reduced to the strings used to build the message). -/
inductive GoErr where
  | invalidParameter (param : String) (reason : String)
  | invalidState (reason : String)
deriving DecidableEq

/-- Outcome of a Go call: a normal result, a returned error value, or a
panic (which aborts the program rather than returning to the caller). -/
inductive GoResult (α : Type) where
  | ok (val : α)
  | err (e : GoErr)
  | panics (msg : String)
deriving DecidableEq

/-- True when the outcome is a returned error value. -/
def GoResult.isErr {α : Type} : GoResult α → Bool
  | .err _ => true
  | _ => false

/-- True when the outcome is a panic. -/
def GoResult.isPanicked {α : Type} : GoResult α → Bool
  | .panics _ => true
  | _ => false

variable {α : Type} [LinearOrderedField α]

/-- State of the Go FIRFilter struct: coefficients, ring buffer of
delayed samples, and current buffer position. -/
structure FIRFilter (α : Type) where
  coeffs : List α
  buffer : List α
  pos : ℕ
deriving DecidableEq

/-- Go NewFIRFilter: panics on an empty coefficient slice, otherwise
allocates a zero buffer of the same length with pos = n - 1. -/
def NewFIRFilter (coeffs : List α) : GoResult (FIRFilter α) :=
  if coeffs.length = 0 then .panics "FIRFilter: coefficients cannot be empty"
  else .ok ⟨coeffs, List.replicate coeffs.length 0, coeffs.length - 1⟩

/-- The convolution loop inside Go FIRFilter.Tick: walks the coefficient
list forward while stepping the buffer index backward with wraparound
(bufIdx-1, wrapping to length-1 below zero). -/
def firConvolve (coeffs buffer : List α) (bufIdx : ℕ) : α :=
  match coeffs with
  | [] => 0
  | c :: rest =>
      c * buffer.getD bufIdx 0 +
        firConvolve rest buffer (if bufIdx = 0 then buffer.length - 1 else bufIdx - 1)

/-- Go FIRFilter.Tick: advance pos, write the input there, return the
convolution of the coefficients with the buffer read backward from pos.
Returned as (output, new state). -/
def FIRFilter.Tick (f : FIRFilter α) (input : α) : α × FIRFilter α :=
  let pos := (f.pos + 1) % f.buffer.length
  let buffer := f.buffer.set pos input
  (firConvolve f.coeffs buffer pos, ⟨f.coeffs, buffer, pos⟩)

/-- Go FIRFilter.Reset: zero the buffer and reset pos to length - 1. -/
def FIRFilter.Reset (f : FIRFilter α) : FIRFilter α :=
  ⟨f.coeffs, List.replicate f.buffer.length 0, f.buffer.length - 1⟩

/-- Drive a FIR filter with a list of samples via repeated Tick calls,
collecting the outputs (the pattern used by the Go tests). -/
def firRun (f : FIRFilter α) : List α → List α × FIRFilter α
  | [] => ([], f)
  | x :: xs =>
      let r := f.Tick x
      let rest := firRun r.2 xs
      (r.1 :: rest.1, rest.2)

/-- Construct a FIR filter and run it over the inputs. -/
def firOutputs (coeffs inputs : List α) : GoResult (List α) :=
  match NewFIRFilter coeffs with
  | .ok f => .ok (firRun f inputs).1
  | .err e => .err e
  | .panics m => .panics m

/-- The backward-stepping convolution loop computes the ring-buffer
convolution sum: coefficient i pairs with the buffer entry at
(bufIdx - i) mod length. -/
theorem firConvolve_eq_sum (buffer : List α) :
    ∀ (coeffs : List α) (bufIdx : ℕ), 0 < buffer.length → bufIdx < buffer.length →
      coeffs.length ≤ buffer.length →
      firConvolve coeffs buffer bufIdx =
        ∑ i in Finset.range coeffs.length,
          coeffs.getD i 0 *
            buffer.getD ((bufIdx + (buffer.length - i)) % buffer.length) 0 := by
  intro coeffs
  induction coeffs with
  | nil => intro bufIdx _ _ _; simp [firConvolve]
  | cons c rest ih =>
      intro bufIdx hlen hidx hle
      have hidx2 : (if bufIdx = 0 then buffer.length - 1 else bufIdx - 1) < buffer.length := by
        split <;> omega
      have hle2 : rest.length ≤ buffer.length := by
        simp only [List.length_cons] at hle; omega
      have key : ∀ i, i < rest.length →
          ((if bufIdx = 0 then buffer.length - 1 else bufIdx - 1) + (buffer.length - i)) %
              buffer.length
            = (bufIdx + (buffer.length - (i + 1))) % buffer.length := by
        intro i hi
        have hi1 : i + 1 ≤ buffer.length := by omega
        rcases Nat.eq_zero_or_pos bufIdx with h0 | hpos
        · have h1 : (if bufIdx = 0 then buffer.length - 1 else bufIdx - 1) +
              (buffer.length - i) = buffer.length + (bufIdx + (buffer.length - (i + 1))) := by
            rw [h0, if_pos rfl]; omega
          rw [h1, Nat.add_mod_left]
        · have h1 : (if bufIdx = 0 then buffer.length - 1 else bufIdx - 1) +
              (buffer.length - i) = bufIdx + (buffer.length - (i + 1)) := by
            rw [if_neg (Nat.pos_iff_ne_zero.mp hpos)]; omega
          rw [h1]
      have hfirst : (bufIdx + (buffer.length - 0)) % buffer.length = bufIdx := by
        rw [Nat.sub_zero, Nat.add_mod_right]
        exact Nat.mod_eq_of_lt hidx
      simp only [firConvolve]
      rw [ih _ hlen hidx2 hle2, List.length_cons, Finset.sum_range_succ']
      simp only [List.getD_cons_zero, List.getD_cons_succ, hfirst]
      rw [add_comm]
      congr 1
      refine Finset.sum_congr rfl ?_
      intro i hi
      rw [key i (Finset.mem_range.mp hi)]

/-- Reading back the position just written by List.set yields the new value. -/
theorem getD_set_self (l : List α) (i : ℕ) (x : α) (h : i < l.length) :
    (l.set i x).getD i 0 = x := by
  rw [List.getD_eq_getElem?_getD, List.getElem?_set_self]
  · simp
  · simpa using h

/-- Claim C1: for every FIR filter whose ring buffer matches its non-empty
coefficient sequence, Tick advances the cursor, writes the input at the new
cursor, and returns the convolution sum pairing coefficient k with the k-th
oldest sample (the buffer entry at (cursor - k) mod N); and the filter with
coefficients [1,2,3] fed the impulse [1,0,0,0] outputs [1,2,3,0]. -/
theorem fir_tick_convolution :
    (∀ (α : Type) [LinearOrderedField α] (f : FIRFilter α) (x : α),
        f.buffer.length = f.coeffs.length → 0 < f.coeffs.length →
        (f.Tick x).2.pos = (f.pos + 1) % f.coeffs.length ∧
        (f.Tick x).2.buffer.getD (f.Tick x).2.pos 0 = x ∧
        (f.Tick x).1 =
          ∑ i in Finset.range f.coeffs.length,
            f.coeffs.getD i 0 *
              (f.Tick x).2.buffer.getD
                (((f.Tick x).2.pos + (f.coeffs.length - i)) % f.coeffs.length) 0) ∧
    firOutputs [1, 2, 3] [1, 0, 0, 0] = .ok ([1, 2, 3, 0] : List ℚ) := by
  constructor
  · intro α _ f x hlen hpos
    have hbuf : 0 < f.buffer.length := hlen ▸ hpos
    have hlt : (f.pos + 1) % f.buffer.length < f.buffer.length := Nat.mod_lt _ hbuf
    have hsetlen : (f.buffer.set ((f.pos + 1) % f.buffer.length) x).length =
        f.buffer.length := List.length_set ..
    refine ⟨by simp [FIRFilter.Tick, hlen], ?_, ?_⟩
    · simpa [FIRFilter.Tick] using
        getD_set_self f.buffer ((f.pos + 1) % f.buffer.length) x hlt
    · have hconv := firConvolve_eq_sum
        (f.buffer.set ((f.pos + 1) % f.buffer.length) x) f.coeffs
        ((f.pos + 1) % f.buffer.length)
        (by rw [hsetlen]; exact hbuf) (by rw [hsetlen]; exact hlt)
        (by rw [hsetlen, hlen])
      simpa [FIRFilter.Tick, hsetlen, hlen] using hconv
  · norm_num [firOutputs, NewFIRFilter, firRun, FIRFilter.Tick, firConvolve,
      List.replicate, List.getD]

/-- Witness for C1: a concrete three-tap filter state and input. -/
def c1Filter : FIRFilter ℚ := ⟨[1, 2, 3], [10, 20, 30], 2⟩

/-- Claim C1 witness: the general Tick theorem applied to the concrete
three-tap filter with input 7. -/
theorem fir_tick_convolution_witness :
    c1Filter.buffer.length = c1Filter.coeffs.length ∧ 0 < c1Filter.coeffs.length ∧
    ((c1Filter.Tick 7).2.pos = (c1Filter.pos + 1) % c1Filter.coeffs.length ∧
     (c1Filter.Tick 7).2.buffer.getD (c1Filter.Tick 7).2.pos 0 = 7 ∧
     (c1Filter.Tick 7).1 =
       ∑ i in Finset.range c1Filter.coeffs.length,
         c1Filter.coeffs.getD i 0 *
           (c1Filter.Tick 7).2.buffer.getD
             (((c1Filter.Tick 7).2.pos + (c1Filter.coeffs.length - i)) %
               c1Filter.coeffs.length) 0) :=
  ⟨by decide, by decide, fir_tick_convolution.1 ℚ c1Filter 7 (by decide) (by decide)⟩

/-- Tick preserves the coefficient list and the buffer length, hence so does
any run of Tick calls. -/
theorem firRun_preserves (xs : List α) :
    ∀ f : FIRFilter α, (firRun f xs).2.coeffs = f.coeffs ∧
      (firRun f xs).2.buffer.length = f.buffer.length := by
  induction xs with
  | nil => intro f; exact ⟨rfl, rfl⟩
  | cons x xs ih =>
      intro f
      have h := ih (f.Tick x).2
      refine ⟨?_, ?_⟩
      · rw [firRun]; exact h.1
      · rw [firRun]
        rw [h.2]
        simp [FIRFilter.Tick]

/-- Claim C7: resetting a FIR filter after any prior history of ticks puts
it back into exactly the freshly-constructed state, so any subsequent input
sequence produces the same outputs as on a fresh filter with the same
coefficients. -/
theorem fir_reset_law :
    ∀ (α : Type) [LinearOrderedField α] (c : List α) (g : FIRFilter α)
      (prior s : List α),
      NewFIRFilter c = .ok g →
      (firRun ((firRun g prior).2.Reset) s).1 = (firRun g s).1 := by
  intro α _ c g prior s hnew
  have hg : g = ⟨c, List.replicate c.length 0, c.length - 1⟩ := by
    by_cases h : c.length = 0
    · simp [NewFIRFilter, h] at hnew
    · simp [NewFIRFilter, h] at hnew
      exact hnew.symm
  have hkeep := firRun_preserves prior g
  have hreset : (firRun g prior).2.Reset = g := by
    show (⟨(firRun g prior).2.coeffs,
      List.replicate (firRun g prior).2.buffer.length 0,
      (firRun g prior).2.buffer.length - 1⟩ : FIRFilter α) = g
    rw [hkeep.1, hkeep.2, hg]
    simp
  rw [hreset]

/-- Witness for C7: a concrete two-tap filter. -/
def c7Filter : FIRFilter ℚ := ⟨[1, 2], [0, 0], 1⟩

/-- Claim C7 witness: the reset law applied to the two-tap filter with a
concrete prior history [5] and input sequence [7, 9]. -/
theorem fir_reset_law_witness :
    NewFIRFilter [1, 2] = .ok c7Filter ∧
    (firRun ((firRun c7Filter [5]).2.Reset) [7, 9]).1 = (firRun c7Filter [7, 9]).1 :=
  ⟨by decide, fir_reset_law ℚ [1, 2] c7Filter [5] [7, 9] (by decide)⟩

/-- State of the Go IIRFilter struct: feedforward and feedback
coefficients, input and output history ring buffers, their cursors, and
the derived filter order. -/
structure IIRFilter (α : Type) where
  bCoeffs : List α
  aCoeffs : List α
  xBuffer : List α
  yBuffer : List α
  xPos : ℕ
  yPos : ℕ
  order : ℕ
deriving DecidableEq

/-- Go NewIIRFilter: panics when either coefficient slice is empty;
divides every coefficient by a[0] when |a[0] - 1| > 1e-10; allocates zero
history buffers sized by the coefficient lists. -/
def NewIIRFilter (bCoeffs aCoeffs : List α) : GoResult (IIRFilter α) :=
  if bCoeffs.length = 0 then .panics "IIRFilter: b coefficients cannot be empty"
  else if aCoeffs.length = 0 then .panics "IIRFilter: a coefficients cannot be empty"
  else if |aCoeffs.getD 0 0 - 1| > (1 / 10000000000 : α) then
    .ok ⟨bCoeffs.map (· / aCoeffs.getD 0 0), aCoeffs.map (· / aCoeffs.getD 0 0),
      List.replicate bCoeffs.length 0, List.replicate aCoeffs.length 0, 0, 0,
      max bCoeffs.length aCoeffs.length - 1⟩
  else
    .ok ⟨bCoeffs, aCoeffs, List.replicate bCoeffs.length 0,
      List.replicate aCoeffs.length 0, 0, 0, max bCoeffs.length aCoeffs.length - 1⟩

/-- One accumulation loop of Go IIRFilter.Tick: coefficient number i0 + j
pairs with the buffer entry at index (pos - (i0 + j)) emod length, the Go
idiom idx := (pos - i) % len; if idx < 0 then idx += len. -/
def iirSum (coeffs buf : List α) (pos : ℤ) (i0 : ℕ) : α :=
  match coeffs with
  | [] => 0
  | c :: rest =>
      c * buf.getD ((pos - i0) % (buf.length : ℤ)).toNat 0 + iirSum rest buf pos (i0 + 1)

/-- Go IIRFilter.Tick: store the input in the input history, combine the
feedforward sum over bCoeffs (from index 0) with the feedback sum over
aCoeffs (from index 1, subtracted), store the output in the output
history, then advance both cursors. Returned as (output, new state). -/
def IIRFilter.Tick (f : IIRFilter α) (input : α) : α × IIRFilter α :=
  let xBuf := f.xBuffer.set f.xPos input
  let output := iirSum f.bCoeffs xBuf f.xPos 0 - iirSum (f.aCoeffs.drop 1) f.yBuffer f.yPos 1
  let yBuf := f.yBuffer.set f.yPos output
  (output,
   ⟨f.bCoeffs, f.aCoeffs, xBuf, yBuf, (f.xPos + 1) % xBuf.length,
    (f.yPos + 1) % yBuf.length, f.order⟩)

/-- Go IIRFilter.Reset: zero both history buffers and both cursors,
keeping the coefficients. -/
def IIRFilter.Reset (f : IIRFilter α) : IIRFilter α :=
  ⟨f.bCoeffs, f.aCoeffs, List.replicate f.xBuffer.length 0,
   List.replicate f.yBuffer.length 0, 0, 0, f.order⟩

/-- Go IIRFilter.Process: apply Tick to each input in order, collecting
the outputs. -/
def IIRFilter.Process (f : IIRFilter α) : List α → List α × IIRFilter α
  | [] => ([], f)
  | x :: xs =>
      let r := f.Tick x
      let rest := r.2.Process xs
      (r.1 :: rest.1, rest.2)

/-- Construct an IIR filter and run it over the inputs. -/
def iirOutputs (bCoeffs aCoeffs inputs : List α) : GoResult (List α) :=
  match NewIIRFilter bCoeffs aCoeffs with
  | .ok f => .ok (f.Process inputs).1
  | .err e => .err e
  | .panics m => .panics m

/-- Go IIRFilter.IsStable: order 0 is stable, order 1 checks |a1| < 1,
order 2 checks the triangular region, higher orders always report
stable. -/
def IIRFilter.IsStable (f : IIRFilter α) : Bool :=
  if f.aCoeffs.length ≤ 1 then true
  else if f.aCoeffs.length = 2 then decide (|f.aCoeffs.getD 1 0| < 1)
  else if f.aCoeffs.length = 3 then
    decide (f.aCoeffs.getD 2 0 < 1 ∧ f.aCoeffs.getD 2 0 > -1 ∧
      f.aCoeffs.getD 2 0 > -f.aCoeffs.getD 1 0 - 1 ∧
      f.aCoeffs.getD 2 0 > f.aCoeffs.getD 1 0 - 1)
  else true

/-- Dropping the head shifts getD indices by one. -/
theorem getD_drop_one (l : List α) (i : ℕ) :
    (l.drop 1).getD i 0 = l.getD (1 + i) 0 := by
  cases l with
  | nil => simp
  | cons a t => rw [Nat.add_comm]; simp

/-- The Tick accumulation loop computes the sum over the coefficient list
of coefficient (i0 + j) times the buffer entry at (pos - (i0 + j)) emod
length. -/
theorem iirSum_eq_sum (buf : List α) (pos : ℤ) :
    ∀ (coeffs : List α) (i0 : ℕ),
      iirSum coeffs buf pos i0 =
        ∑ j in Finset.range coeffs.length,
          coeffs.getD j 0 * buf.getD (((pos - (i0 + j)) % (buf.length : ℤ)).toNat) 0 := by
  intro coeffs
  induction coeffs with
  | nil => intro i0; simp [iirSum]
  | cons c rest ih =>
      intro i0
      rw [iirSum, ih (i0 + 1), List.length_cons, Finset.sum_range_succ']
      simp only [List.getD_cons_zero, List.getD_cons_succ, Nat.cast_add,
        Nat.cast_one, Nat.cast_zero, add_zero]
      rw [add_comm]
      congr 1
      refine Finset.sum_congr rfl fun j _ => ?_
      congr 3
      ring_nf

/-- Claim C2: IIR Tick stores the input in the input history, returns the
direct-form-I value (feedforward sum over b from the input history minus
feedback sum over a[1..] from the output history, each read at
(cursor - i) emod length), stores that value in the output history, then
advances both cursors; and the filter b=[0.5], a=[1,0.3] fed the impulse
[1,0,0,0,0] outputs [0.5, -0.15, 0.045, -0.0135, 0.00405]. -/
theorem iir_tick_recurrence :
    (∀ (α : Type) [LinearOrderedField α] (f : IIRFilter α) (input : α),
        (f.Tick input).1 =
          (∑ i in Finset.range f.bCoeffs.length,
             f.bCoeffs.getD i 0 *
               (f.xBuffer.set f.xPos input).getD
                 ((((f.xPos : ℤ) - i) % (f.xBuffer.length : ℤ)).toNat) 0)
          - ∑ i in Finset.Ico 1 f.aCoeffs.length,
              f.aCoeffs.getD i 0 *
                f.yBuffer.getD ((((f.yPos : ℤ) - i) % (f.yBuffer.length : ℤ)).toNat) 0 ∧
        (f.Tick input).2.xBuffer = f.xBuffer.set f.xPos input ∧
        (f.Tick input).2.yBuffer = f.yBuffer.set f.yPos (f.Tick input).1 ∧
        (f.Tick input).2.xPos = (f.xPos + 1) % f.xBuffer.length ∧
        (f.Tick input).2.yPos = (f.yPos + 1) % f.yBuffer.length) ∧
    iirOutputs [0.5] [1, 0.3] [1, 0, 0, 0, 0] =
      .ok ([0.5, -0.15, 0.045, -0.0135, 0.00405] : List ℚ) := by
  constructor
  · intro α _ f input
    have hff : iirSum f.bCoeffs (f.xBuffer.set f.xPos input) (f.xPos : ℤ) 0 =
        ∑ i in Finset.range f.bCoeffs.length,
          f.bCoeffs.getD i 0 *
            (f.xBuffer.set f.xPos input).getD
              ((((f.xPos : ℤ) - i) % (f.xBuffer.length : ℤ)).toNat) 0 := by
      rw [iirSum_eq_sum]
      simp [List.length_set]
    have hfb : iirSum (f.aCoeffs.drop 1) f.yBuffer (f.yPos : ℤ) 1 =
        ∑ i in Finset.Ico 1 f.aCoeffs.length,
          f.aCoeffs.getD i 0 *
            f.yBuffer.getD ((((f.yPos : ℤ) - i) % (f.yBuffer.length : ℤ)).toNat) 0 := by
      rw [iirSum_eq_sum, Finset.sum_Ico_eq_sum_range]
      simp only [List.length_drop]
      refine Finset.sum_congr rfl fun j _ => ?_
      rw [getD_drop_one]
      norm_num
    refine ⟨?_, rfl, rfl, ?_, ?_⟩
    · show iirSum f.bCoeffs (f.xBuffer.set f.xPos input) (f.xPos : ℤ) 0 -
        iirSum (f.aCoeffs.drop 1) f.yBuffer (f.yPos : ℤ) 1 = _
      rw [hff, hfb]
    · simp [IIRFilter.Tick]
    · simp [IIRFilter.Tick]
  · norm_num [iirOutputs, NewIIRFilter, IIRFilter.Process, IIRFilter.Tick, iirSum,
      List.replicate, List.getD]

/-- The leading feedback coefficient of a successfully constructed IIR
filter, when construction succeeds. -/
def iirA0 : GoResult (IIRFilter α) → Option α
  | .ok f => some (f.aCoeffs.getD 0 0)
  | _ => none

/-- Process preserves both coefficient lists. -/
theorem iirProcess_preserves (xs : List α) :
    ∀ f : IIRFilter α, (f.Process xs).2.bCoeffs = f.bCoeffs ∧
      (f.Process xs).2.aCoeffs = f.aCoeffs := by
  induction xs with
  | nil => intro f; exact ⟨rfl, rfl⟩
  | cons x xs ih =>
      intro f
      have h := ih (f.Tick x).2
      exact ⟨by rw [IIRFilter.Process]; exact h.1, by rw [IIRFilter.Process]; exact h.2⟩

/-- Claim C3 counterexample: the constructor accepts a = [1 + 10⁻¹¹],
whose head differs from 1, without rescaling, so the constructed filter
has a[0] = 1 + 10⁻¹¹ ≠ 1: the normalization is gated on the 1e-10
tolerance and a[0] == 1 does not hold exactly for every accepted input. -/
theorem iir_a0_exact_counterexample :
    iirA0 (NewIIRFilter [(1 : ℚ)] [1 + 1 / 10 ^ 11]) = some (1 + 1 / 10 ^ 11) ∧
    (1 + 1 / 10 ^ 11 : ℚ) ≠ 1 := by
  have hcond : ¬ (|([(1 : ℚ) + 1 / 10 ^ 11].getD 0 0) - 1| > (1 / 10000000000 : ℚ)) := by
    simp only [List.getD_cons_zero]
    rw [show (1 : ℚ) + 1 / 10 ^ 11 - 1 = 1 / 10 ^ 11 by ring,
      abs_of_pos (by norm_num : (0 : ℚ) < 1 / 10 ^ 11)]
    norm_num
  constructor
  · rw [NewIIRFilter, if_neg (by norm_num), if_neg (by norm_num), if_neg hcond, iirA0]
    simp
  · norm_num

/-- Claim C3 as amended: the constructor rescales all coefficients by the
original a[0] exactly when |a[0] - 1| > 1e-10 (making a[0] equal 1
whenever the original a[0] is nonzero) and leaves them untouched
otherwise, so after construction a[0] is within 1e-10 of 1 rather than
exactly 1; and no later Tick, Process or Reset changes either coefficient
list. -/
theorem iir_a0_normalization :
    (∀ (α : Type) [LinearOrderedField α] (b a : List α) (f : IIRFilter α),
        NewIIRFilter b a = .ok f →
        (|a.getD 0 0 - 1| ≤ 1 / 10000000000 → f.bCoeffs = b ∧ f.aCoeffs = a) ∧
        (1 / 10000000000 < |a.getD 0 0 - 1| →
          f.bCoeffs = b.map (· / a.getD 0 0) ∧ f.aCoeffs = a.map (· / a.getD 0 0) ∧
          (a.getD 0 0 ≠ 0 → f.aCoeffs.getD 0 0 = 1))) ∧
    (∀ (α : Type) [LinearOrderedField α] (f : IIRFilter α) (x : α) (xs : List α),
        (f.Tick x).2.bCoeffs = f.bCoeffs ∧ (f.Tick x).2.aCoeffs = f.aCoeffs ∧
        (f.Process xs).2.bCoeffs = f.bCoeffs ∧ (f.Process xs).2.aCoeffs = f.aCoeffs ∧
        f.Reset.bCoeffs = f.bCoeffs ∧ f.Reset.aCoeffs = f.aCoeffs) := by
  constructor
  · intro α _ b a f hnew
    by_cases hb : b.length = 0
    · rw [NewIIRFilter, if_pos hb] at hnew
      exact absurd hnew (by simp)
    by_cases ha : a.length = 0
    · rw [NewIIRFilter, if_neg hb, if_pos ha] at hnew
      exact absurd hnew (by simp)
    by_cases hnorm : 1 / 10000000000 < |a.getD 0 0 - 1|
    · rw [NewIIRFilter, if_neg hb, if_neg ha, if_pos hnorm] at hnew
      simp only [GoResult.ok.injEq] at hnew
      have hf := hnew.symm
      refine ⟨fun hle => absurd hnorm (not_lt.mpr hle), fun _ => ⟨by rw [hf], by rw [hf], ?_⟩⟩
      intro ha0
      rw [hf]
      cases a with
      | nil => simp at ha
      | cons a0 t =>
          simp only [List.getD_cons_zero] at ha0 ⊢
          simp [div_self ha0]
    · rw [NewIIRFilter, if_neg hb, if_neg ha, if_neg hnorm] at hnew
      simp only [GoResult.ok.injEq] at hnew
      have hf := hnew.symm
      exact ⟨fun _ => ⟨by rw [hf], by rw [hf]⟩, fun hgt => absurd hgt hnorm⟩
  · intro α _ f x xs
    exact ⟨rfl, rfl, (iirProcess_preserves xs f).1, (iirProcess_preserves xs f).2, rfl, rfl⟩

/-- Witness filter for C3: constructing with b=[2,1], a=[4,2] rescales by 4. -/
def c3Filter : IIRFilter ℚ := ⟨[1/2, 1/4], [1, 1/2], [0, 0], [0, 0], 0, 0, 1⟩

/-- Claim C3 witness: the amended normalization theorem applied to the
concrete coefficients b=[2,1], a=[4,2] with original a[0] = 4. -/
theorem iir_a0_normalization_witness :
    NewIIRFilter [(2 : ℚ), 1] [4, 2] = .ok c3Filter ∧
    (1 / 10000000000 : ℚ) < |[(4 : ℚ), 2].getD 0 0 - 1| ∧
    (c3Filter.bCoeffs = [(2 : ℚ), 1].map (· / [(4 : ℚ), 2].getD 0 0) ∧
     c3Filter.aCoeffs = [(4 : ℚ), 2].map (· / [(4 : ℚ), 2].getD 0 0) ∧
     ([(4 : ℚ), 2].getD 0 0 ≠ 0 → c3Filter.aCoeffs.getD 0 0 = 1)) :=
  ⟨by norm_num [NewIIRFilter, c3Filter, List.replicate],
   by norm_num,
   (iir_a0_normalization.1 ℚ [2, 1] [4, 2] c3Filter
      (by norm_num [NewIIRFilter, c3Filter, List.replicate])).2 (by norm_num)⟩

/-- Run IsStable on a freshly constructed IIR filter. -/
def isStableOf (b a : List α) : Option Bool :=
  match NewIIRFilter b a with
  | .ok f => some f.IsStable
  | _ => none

/-- Claim C6: IsStable is true for feedback length 1, tests |a1| < 1 for
length 2, tests the four triangular-region conditions for length 3, and
is always true for longer feedback sequences; concretely it is false for
a=[1,1.5] and true for a=[1,0.3]. -/
theorem iir_isStable_spec :
    (∀ (α : Type) [LinearOrderedField α] (f : IIRFilter α),
        (f.aCoeffs.length = 1 → f.IsStable = true) ∧
        (f.aCoeffs.length = 2 → (f.IsStable = true ↔ |f.aCoeffs.getD 1 0| < 1)) ∧
        (f.aCoeffs.length = 3 → (f.IsStable = true ↔
           (f.aCoeffs.getD 2 0 < 1 ∧ f.aCoeffs.getD 2 0 > -1 ∧
            f.aCoeffs.getD 2 0 > -f.aCoeffs.getD 1 0 - 1 ∧
            f.aCoeffs.getD 2 0 > f.aCoeffs.getD 1 0 - 1))) ∧
        (4 ≤ f.aCoeffs.length → f.IsStable = true)) ∧
    isStableOf [(1 : ℚ)] [1, 1.5] = some false ∧
    isStableOf [(1 : ℚ)] [1, 0.3] = some true := by
  refine ⟨fun α _ f => ⟨fun h1 => ?_, fun h2 => ?_, fun h3 => ?_, fun h4 => ?_⟩, ?_, ?_⟩
  · simp [IIRFilter.IsStable, h1]
  · simp [IIRFilter.IsStable, h2]
  · simp [IIRFilter.IsStable, h3]
  · rw [IIRFilter.IsStable, if_neg (by omega), if_neg (by omega), if_neg (by omega)]
  · norm_num [isStableOf, NewIIRFilter, IIRFilter.IsStable, abs]
  · norm_num [isStableOf, NewIIRFilter, IIRFilter.IsStable, abs]

/-- Witness filter for C6: feedback coefficients [1, 3/2] (length 2). -/
def c6Filter : IIRFilter ℚ := ⟨[1], [1, 3/2], [0], [0, 0], 0, 0, 1⟩

/-- Claim C6 witness: the IsStable case theorem applied to the concrete
first-order filter with a = [1, 3/2]. -/
theorem iir_isStable_spec_witness :
    c6Filter.aCoeffs.length = 2 ∧
    (c6Filter.IsStable = true ↔ |c6Filter.aCoeffs.getD 1 0| < 1) :=
  ⟨by simp [c6Filter], (iir_isStable_spec.1 ℚ c6Filter).2.1 (by simp [c6Filter])⟩

/-- State of the Go GoertzelFilter struct: target bin k, angular
frequency w with cached cos, sin and the recurrence coefficient 2 cos w,
the resonator state q1, q2, the processed-sample counter n and the fixed
capacity totalN. -/
structure GoertzelFilter where
  k : ℤ
  w : ℝ
  cosW : ℝ
  sinW : ℝ
  q1 : ℝ
  q2 : ℝ
  n : ℕ
  totalN : ℕ
  coeff : ℝ

/-- The state built at the end of Go NewGoertzelFilter from the clamped
bin index and the validated sample count. -/
noncomputable def goertzelMk (k : ℤ) (totalN : ℕ) : GoertzelFilter :=
  ⟨k, 2 * Real.pi * (k : ℝ) / (totalN : ℝ),
   Real.cos (2 * Real.pi * (k : ℝ) / (totalN : ℝ)),
   Real.sin (2 * Real.pi * (k : ℝ) / (totalN : ℝ)),
   0, 0, 0, totalN,
   2 * Real.cos (2 * Real.pi * (k : ℝ) / (totalN : ℝ))⟩

/-- Go NewGoertzelFilter: validates freq, samplingRate, totalN and the
Nyquist bound, computes k = int(0.5 + totalN·freq/samplingRate) (the Go
int conversion truncates; the operand is positive here, so it is the
floor), clamps k to totalN - 1, and derives w, cos w, sin w and
coeff = 2 cos w. -/
noncomputable def NewGoertzelFilter (freq samplingRate : ℝ) (totalN : ℤ) :
    GoResult GoertzelFilter :=
  if freq ≤ 0 then .err (.invalidParameter "freq" "frequency must be positive")
  else if samplingRate ≤ 0 then
    .err (.invalidParameter "samplingRate" "sampling rate must be positive")
  else if totalN ≤ 0 then
    .err (.invalidParameter "totalN" "total samples must be positive")
  else if samplingRate / 2 ≤ freq then
    .err (.invalidParameter "freq"
      "frequency must be less than Nyquist frequency (samplingRate/2)")
  else if totalN ≤ ⌊(0.5 : ℝ) + (totalN : ℝ) * freq / samplingRate⌋ then
    .ok (goertzelMk (totalN - 1) totalN.toNat)
  else
    .ok (goertzelMk ⌊(0.5 : ℝ) + (totalN : ℝ) * freq / samplingRate⌋ totalN.toNat)

/-- Go GoertzelFilter.Process: rejects input once n has reached totalN,
otherwise applies q0 = input + coeff·q1 − q2, shifts q2 ← q1, q1 ← q0 and
increments n. -/
def GoertzelFilter.Process (gf : GoertzelFilter) (input : ℝ) :
    Except GoErr GoertzelFilter :=
  if gf.totalN ≤ gf.n then .error (.invalidState "all samples have already been processed")
  else .ok { gf with q2 := gf.q1, q1 := input + gf.coeff * gf.q1 - gf.q2, n := gf.n + 1 }

/-- Go GoertzelFilter.Reset: zero q1, q2 and n, keeping k, w and the
cached trigonometric values. -/
def GoertzelFilter.Reset (gf : GoertzelFilter) : GoertzelFilter :=
  { gf with q1 := 0, q2 := 0, n := 0 }

/-- Go GoertzelFilter.GetMagnitude: fails when n = 0; clamps a negative
radicand q1² + q2² − coeff·q1·q2 to magnitude 0; otherwise returns
2·sqrt(radicand)/totalN. -/
noncomputable def GoertzelFilter.GetMagnitude (gf : GoertzelFilter) : Except GoErr ℝ :=
  if gf.n = 0 then .error (.invalidState "no samples have been processed yet")
  else if gf.q1 * gf.q1 + gf.q2 * gf.q2 - gf.coeff * gf.q1 * gf.q2 < 0 then .ok 0
  else .ok (2 * Real.sqrt (gf.q1 * gf.q1 + gf.q2 * gf.q2 - gf.coeff * gf.q1 * gf.q2) /
    (gf.totalN : ℝ))

/-- Go GoertzelFilter.GetMagnitudeOptimized: same contract via
real = q1 − q2·cosW, imag = q2·sinW, 2·sqrt(real² + imag²)/totalN. -/
noncomputable def GoertzelFilter.GetMagnitudeOptimized (gf : GoertzelFilter) :
    Except GoErr ℝ :=
  if gf.n = 0 then .error (.invalidState "no samples have been processed yet")
  else if (gf.q1 - gf.q2 * gf.cosW) * (gf.q1 - gf.q2 * gf.cosW) +
      gf.q2 * gf.sinW * (gf.q2 * gf.sinW) < 0 then .ok 0
  else .ok (2 * Real.sqrt ((gf.q1 - gf.q2 * gf.cosW) * (gf.q1 - gf.q2 * gf.cosW) +
    gf.q2 * gf.sinW * (gf.q2 * gf.sinW)) / (gf.totalN : ℝ))

/-- The construction invariant tying the cached trigonometric fields to
the angular frequency. -/
def GoertzelFilter.WellFormed (gf : GoertzelFilter) : Prop :=
  gf.cosW = Real.cos gf.w ∧ gf.sinW = Real.sin gf.w ∧ gf.coeff = 2 * gf.cosW

/-- Feed a list of samples through Process, stopping at the first error. -/
def processAll (gf : GoertzelFilter) : List ℝ → Except GoErr GoertzelFilter
  | [] => .ok gf
  | x :: xs =>
      match gf.Process x with
      | .ok g => processAll g xs
      | .error e => .error e

/-- States reachable from a successful construction through Process and
Reset calls. -/
inductive GoertzelReachable : GoertzelFilter → Prop where
  | construct (freq samplingRate : ℝ) (totalN : ℤ) (gf : GoertzelFilter) :
      NewGoertzelFilter freq samplingRate totalN = .ok gf → GoertzelReachable gf
  | step (gf : GoertzelFilter) (input : ℝ) (g : GoertzelFilter) :
      GoertzelReachable gf → gf.Process input = .ok g → GoertzelReachable g
  | reset (gf : GoertzelFilter) : GoertzelReachable gf → GoertzelReachable gf.Reset

/-- Claim C5: Process fails with InvalidState exactly when n has reached
totalN, otherwise performs the Goertzel shift q0 = input + coeff·q1 − q2,
q2 ← q1, q1 ← q0 and increments n; consequently n ≤ totalN in every
reachable state, and a complete detector refuses all further input. -/
theorem goertzel_process_spec :
    (∀ (gf : GoertzelFilter) (x : ℝ),
        (gf.totalN ≤ gf.n →
          gf.Process x = .error (.invalidState "all samples have already been processed")) ∧
        (gf.n < gf.totalN →
          gf.Process x =
            .ok { gf with
                  q2 := gf.q1
                  q1 := x + gf.coeff * gf.q1 - gf.q2
                  n := gf.n + 1 })) ∧
    (∀ gf : GoertzelFilter, GoertzelReachable gf → gf.n ≤ gf.totalN) := by
  constructor
  · intro gf x
    exact ⟨fun h => by rw [GoertzelFilter.Process, if_pos h],
           fun h => by rw [GoertzelFilter.Process, if_neg (not_le.mpr h)]⟩
  · intro gf hreach
    induction hreach with
    | construct freq sr totalN gf hnew =>
        rw [NewGoertzelFilter] at hnew
        split_ifs at hnew <;>
          first
            | exact GoResult.noConfusion hnew
            | (simp only [GoResult.ok.injEq] at hnew
               rw [← hnew, goertzelMk]
               exact Nat.zero_le _)
    | step gf input g _ hstep ih =>
        rw [GoertzelFilter.Process] at hstep
        by_cases h : gf.totalN ≤ gf.n
        · rw [if_pos h] at hstep
          exact absurd hstep (by simp)
        · rw [if_neg h] at hstep
          simp only [Except.ok.injEq] at hstep
          rw [← hstep]
          simpa using Nat.lt_of_not_le h
    | reset gf _ _ => simp [GoertzelFilter.Reset]

/-- Witness state for C5: an empty detector with capacity 4. -/
def c5Start : GoertzelFilter := ⟨0, 0, 1, 0, 0, 0, 0, 4, 2⟩

/-- Witness state for C5: a complete detector with capacity 4. -/
def c5Full : GoertzelFilter := ⟨0, 0, 1, 0, 0, 0, 4, 4, 2⟩

/-- Claim C5 witness: the Process theorem applied to a concrete empty
detector (accepting input 1) and a concrete complete detector (refusing
it). -/
theorem goertzel_process_spec_witness :
    c5Start.n < c5Start.totalN ∧
    c5Start.Process 1 =
      .ok { c5Start with
            q2 := c5Start.q1
            q1 := 1 + c5Start.coeff * c5Start.q1 - c5Start.q2
            n := c5Start.n + 1 } ∧
    c5Full.totalN ≤ c5Full.n ∧
    c5Full.Process 1 = .error (.invalidState "all samples have already been processed") :=
  ⟨by simp [c5Start], (goertzel_process_spec.1 c5Start 1).2 (by simp [c5Start]),
   by simp [c5Full], (goertzel_process_spec.1 c5Full 1).1 (by simp [c5Full])⟩

/-- The radicand of GetMagnitude equals the sum of squares used by
GetMagnitudeOptimized, by the Pythagorean identity. -/
theorem radicand_identity (q1 q2 w : ℝ) :
    q1 * q1 + q2 * q2 - 2 * Real.cos w * q1 * q2 =
      (q1 - q2 * Real.cos w) ^ 2 + (q2 * Real.sin w) ^ 2 := by
  have h := Real.sin_sq_add_cos_sq w
  nlinarith [h]

/-- Process preserves the construction invariant. -/
theorem processAll_wellFormed (samples : List ℝ) :
    ∀ gf0 gf : GoertzelFilter, gf0.WellFormed → processAll gf0 samples = .ok gf →
      gf.WellFormed := by
  induction samples with
  | nil =>
      intro gf0 gf h hp
      rw [processAll] at hp
      simp only [Except.ok.injEq] at hp
      rw [← hp]
      exact h
  | cons x xs ih =>
      intro gf0 gf h hp
      rw [processAll] at hp
      cases hproc : gf0.Process x with
      | error e => rw [hproc] at hp; exact absurd hp (by simp)
      | ok g =>
          rw [hproc] at hp
          refine ih g gf ?_ hp
          rw [GoertzelFilter.Process] at hproc
          by_cases hn : gf0.totalN ≤ gf0.n
          · rw [if_pos hn] at hproc
            exact absurd hproc (by simp)
          · rw [if_neg hn] at hproc
            simp only [Except.ok.injEq] at hproc
            rw [← hproc]
            exact h

/-- Claim C4: a successful construction yields the invariant tying coeff,
cosW and sinW to w, and in every state reached from an invariant-holding
state by successful Process calls with at least one sample processed,
GetMagnitude and GetMagnitudeOptimized both succeed and agree to within
1e-10 (in exact arithmetic they are equal). -/
theorem goertzel_magnitude_agreement :
    (∀ (freq samplingRate : ℝ) (totalN : ℤ) (gf : GoertzelFilter),
        NewGoertzelFilter freq samplingRate totalN = .ok gf → gf.WellFormed) ∧
    (∀ (gf0 gf : GoertzelFilter) (samples : List ℝ),
        gf0.WellFormed → processAll gf0 samples = .ok gf → gf.n ≠ 0 →
        ∃ m1 m2, gf.GetMagnitude = .ok m1 ∧ gf.GetMagnitudeOptimized = .ok m2 ∧
          |m1 - m2| ≤ 1 / 10 ^ 10) := by
  constructor
  · intro freq sr totalN gf hnew
    rw [NewGoertzelFilter] at hnew
    split_ifs at hnew <;>
      first
        | exact GoResult.noConfusion hnew
        | (simp only [GoResult.ok.injEq] at hnew
           rw [← hnew, goertzelMk]
           exact ⟨rfl, rfl, rfl⟩)
  · intro gf0 gf samples hwf0 hrun hn
    have hwf := processAll_wellFormed samples gf0 gf hwf0 hrun
    obtain ⟨hcos, hsin, hcoeff⟩ := hwf
    have hrad : gf.q1 * gf.q1 + gf.q2 * gf.q2 - gf.coeff * gf.q1 * gf.q2 =
        (gf.q1 - gf.q2 * gf.cosW) * (gf.q1 - gf.q2 * gf.cosW) +
          gf.q2 * gf.sinW * (gf.q2 * gf.sinW) := by
      rw [hcoeff, hcos, hsin]
      have h := radicand_identity gf.q1 gf.q2 gf.w
      ring_nf
      ring_nf at h
      linarith [h]
    have hnonneg : 0 ≤ (gf.q1 - gf.q2 * gf.cosW) * (gf.q1 - gf.q2 * gf.cosW) +
        gf.q2 * gf.sinW * (gf.q2 * gf.sinW) :=
      add_nonneg (mul_self_nonneg _) (mul_self_nonneg _)
    refine ⟨2 * Real.sqrt (gf.q1 * gf.q1 + gf.q2 * gf.q2 - gf.coeff * gf.q1 * gf.q2) /
        (gf.totalN : ℝ),
      2 * Real.sqrt ((gf.q1 - gf.q2 * gf.cosW) * (gf.q1 - gf.q2 * gf.cosW) +
        gf.q2 * gf.sinW * (gf.q2 * gf.sinW)) / (gf.totalN : ℝ), ?_, ?_, ?_⟩
    · rw [GoertzelFilter.GetMagnitude, if_neg hn,
        if_neg (not_lt.mpr (hrad ▸ hnonneg))]
    · rw [GoertzelFilter.GetMagnitudeOptimized, if_neg hn, if_neg (not_lt.mpr hnonneg)]
    · rw [hrad, sub_self, abs_zero]
      norm_num

/-- Witness start state for C4: an empty well-formed detector (w = 0). -/
def c4Start : GoertzelFilter := ⟨0, 0, 1, 0, 0, 0, 0, 8, 2⟩

/-- Witness end state for C4: c4Start after processing the sample 5. -/
def c4End : GoertzelFilter := ⟨0, 0, 1, 0, 5, 0, 1, 8, 2⟩

/-- Claim C4 witness: the agreement theorem applied to the concrete
detector c4Start driven by the single sample 5. -/
theorem goertzel_magnitude_agreement_witness :
    c4Start.WellFormed ∧ processAll c4Start [5] = .ok c4End ∧ c4End.n ≠ 0 ∧
    (∃ m1 m2, c4End.GetMagnitude = .ok m1 ∧ c4End.GetMagnitudeOptimized = .ok m2 ∧
      |m1 - m2| ≤ 1 / 10 ^ 10) := by
  have hwf : c4Start.WellFormed := by
    refine ⟨?_, ?_, ?_⟩ <;> simp [c4Start, GoertzelFilter.WellFormed]
  have hrun : processAll c4Start [5] = .ok c4End := by
    norm_num [processAll, GoertzelFilter.Process, c4Start, c4End]
  exact ⟨hwf, hrun, by simp [c4End],
    goertzel_magnitude_agreement.2 c4Start c4End [5] hwf hrun (by simp [c4End])⟩

/-- Claim C10: under the construction invariant coeff = 2 cos w (with the
cached cosW, sinW equal to cos w, sin w), the radicand inside
GetMagnitude equals (q1 − q2 cos w)² + (q2 sin w)², hence is nonnegative,
so the defensive clamp branch is never taken: with at least one processed
sample GetMagnitude always returns 2·sqrt(radicand)/totalN. -/
theorem goertzel_radicand_nonneg :
    ∀ gf : GoertzelFilter, gf.cosW = Real.cos gf.w → gf.sinW = Real.sin gf.w →
      gf.coeff = 2 * gf.cosW →
      (gf.q1 * gf.q1 + gf.q2 * gf.q2 - gf.coeff * gf.q1 * gf.q2 =
        (gf.q1 - gf.q2 * Real.cos gf.w) ^ 2 + (gf.q2 * Real.sin gf.w) ^ 2) ∧
      0 ≤ gf.q1 * gf.q1 + gf.q2 * gf.q2 - gf.coeff * gf.q1 * gf.q2 ∧
      (gf.n ≠ 0 → gf.GetMagnitude =
        .ok (2 * Real.sqrt (gf.q1 * gf.q1 + gf.q2 * gf.q2 - gf.coeff * gf.q1 * gf.q2) /
          (gf.totalN : ℝ))) := by
  intro gf hcos hsin hcoeff
  have hid : gf.q1 * gf.q1 + gf.q2 * gf.q2 - gf.coeff * gf.q1 * gf.q2 =
      (gf.q1 - gf.q2 * Real.cos gf.w) ^ 2 + (gf.q2 * Real.sin gf.w) ^ 2 := by
    rw [hcoeff, hcos]
    exact radicand_identity gf.q1 gf.q2 gf.w
  have hnonneg : 0 ≤ gf.q1 * gf.q1 + gf.q2 * gf.q2 - gf.coeff * gf.q1 * gf.q2 := by
    rw [hid]
    positivity
  refine ⟨hid, hnonneg, fun hn => ?_⟩
  rw [GoertzelFilter.GetMagnitude, if_neg hn, if_neg (not_lt.mpr hnonneg)]

/-- Witness state for C10: a well-formed detector with q1 = 3, q2 = 5. -/
def c10State : GoertzelFilter := ⟨0, 0, 1, 0, 3, 5, 2, 8, 2⟩

/-- Claim C10 witness: the radicand theorem applied to the concrete
detector state with q1 = 3, q2 = 5. -/
theorem goertzel_radicand_nonneg_witness :
    c10State.cosW = Real.cos c10State.w ∧ c10State.sinW = Real.sin c10State.w ∧
    c10State.coeff = 2 * c10State.cosW ∧
    ((c10State.q1 * c10State.q1 + c10State.q2 * c10State.q2 -
        c10State.coeff * c10State.q1 * c10State.q2 =
      (c10State.q1 - c10State.q2 * Real.cos c10State.w) ^ 2 +
        (c10State.q2 * Real.sin c10State.w) ^ 2) ∧
     0 ≤ c10State.q1 * c10State.q1 + c10State.q2 * c10State.q2 -
        c10State.coeff * c10State.q1 * c10State.q2 ∧
     (c10State.n ≠ 0 → c10State.GetMagnitude =
       .ok (2 * Real.sqrt (c10State.q1 * c10State.q1 + c10State.q2 * c10State.q2 -
          c10State.coeff * c10State.q1 * c10State.q2) / (c10State.totalN : ℝ)))) :=
  ⟨by simp [c10State], by simp [c10State], by norm_num [c10State],
   goertzel_radicand_nonneg c10State (by simp [c10State]) (by simp [c10State])
     (by norm_num [c10State])⟩

/-- Result of Go GetFrequencyResponse: a finite complex value, or the
sentinel complex(+Inf, 0) returned when the denominator is exactly zero
(float infinity has no counterpart in ℂ, so it is a distinguished
constructor). -/
inductive FreqResponse where
  | val (z : ℂ)
  | posInf

/-- The power-accumulation loop of Go GetFrequencyResponse: sum of
coeff·zPower with zPower multiplied by z after each term. -/
noncomputable def polyEvalAcc (coeffs : List ℝ) (z zPower : ℂ) : ℂ :=
  match coeffs with
  | [] => 0
  | c :: rest => (c : ℂ) * zPower + polyEvalAcc rest z (zPower * z)

/-- The zero-denominator test and division at the end of Go
GetFrequencyResponse. -/
noncomputable def freqRespCore (b a : List ℝ) (z : ℂ) : GoResult FreqResponse :=
  if (polyEvalAcc a z 1).re = 0 ∧ (polyEvalAcc a z 1).im = 0 then .ok .posInf
  else .ok (.val (polyEvalAcc b z 1 / polyEvalAcc a z 1))

/-- Go GetFrequencyResponse: panics outside [0, 0.5], otherwise evaluates
B(z)/A(z) at z = (cos 2π·freq, sin 2π·freq) with the +infinity sentinel
for a zero denominator. -/
noncomputable def IIRFilter.GetFrequencyResponse (f : IIRFilter ℝ) (freq : ℝ) :
    GoResult FreqResponse :=
  if freq < 0 ∨ 0.5 < freq then .panics "frequency must be between 0 and 0.5 (Nyquist)"
  else freqRespCore f.bCoeffs f.aCoeffs
    ⟨Real.cos (2 * Real.pi * freq), Real.sin (2 * Real.pi * freq)⟩

/-- The frequency response as the specification words it: fail outside
[0, 0.5]; otherwise z = e^(j·2π·freq), B(z) = Σ b[i]·z^i,
A(z) = Σ a[i]·z^i, result B(z)/A(z), with (+infinity, 0) when A(z) = 0. -/
noncomputable def freqRespSpec (b a : List ℝ) (freq : ℝ) : GoResult FreqResponse :=
  if freq < 0 ∨ 0.5 < freq then .panics "frequency must be between 0 and 0.5 (Nyquist)"
  else if (∑ i in Finset.range a.length,
      (a.getD i 0 : ℂ) * Complex.exp (2 * Real.pi * freq * Complex.I) ^ i) = 0 then
    .ok .posInf
  else
    .ok (.val ((∑ i in Finset.range b.length,
        (b.getD i 0 : ℂ) * Complex.exp (2 * Real.pi * freq * Complex.I) ^ i) /
      (∑ i in Finset.range a.length,
        (a.getD i 0 : ℂ) * Complex.exp (2 * Real.pi * freq * Complex.I) ^ i)))

/-- The accumulation loop evaluates the polynomial: with starting power
zPower it returns Σ coeff[i]·zPower·z^i. -/
theorem polyEvalAcc_eq (z : ℂ) :
    ∀ (coeffs : List ℝ) (zPower : ℂ),
      polyEvalAcc coeffs z zPower =
        ∑ i in Finset.range coeffs.length, (coeffs.getD i 0 : ℂ) * zPower * z ^ i := by
  intro coeffs
  induction coeffs with
  | nil => intro zPower; simp [polyEvalAcc]
  | cons c rest ih =>
      intro zPower
      rw [polyEvalAcc, ih (zPower * z), List.length_cons, Finset.sum_range_succ']
      simp only [List.getD_cons_zero, List.getD_cons_succ]
      have hs : ∑ i in Finset.range rest.length,
          ((rest.getD i 0 : ℝ) : ℂ) * (zPower * z) * z ^ i =
        ∑ i in Finset.range rest.length,
          ((rest.getD i 0 : ℝ) : ℂ) * zPower * z ^ (i + 1) :=
        Finset.sum_congr rfl fun i _ => by ring
      rw [hs, pow_zero, mul_one, add_comm]

/-- Claim C8: for every IIR filter and frequency, GetFrequencyResponse
computes exactly the specified map: fails outside [0, 0.5], otherwise
returns B(z)/A(z) at z = e^(j·2π·freq) with Horner-style power
accumulation, and the sentinel (+infinity, 0) when A(z) is exactly
zero. -/
theorem iir_frequency_response_spec :
    ∀ (f : IIRFilter ℝ) (freq : ℝ),
      f.GetFrequencyResponse freq = freqRespSpec f.bCoeffs f.aCoeffs freq := by
  intro f freq
  rw [IIRFilter.GetFrequencyResponse, freqRespSpec]
  by_cases hout : freq < 0 ∨ 0.5 < freq
  · rw [if_pos hout, if_pos hout]
  · rw [if_neg hout, if_neg hout, freqRespCore]
    have hz : (⟨Real.cos (2 * Real.pi * freq), Real.sin (2 * Real.pi * freq)⟩ : ℂ) =
        Complex.exp (2 * Real.pi * freq * Complex.I) := by
      rw [Complex.mk_eq_add_mul_I,
        show ((2 : ℂ) * (Real.pi : ℂ) * (freq : ℂ) * Complex.I) =
          ((2 * Real.pi * freq : ℝ) : ℂ) * Complex.I by push_cast; ring,
        Complex.exp_mul_I, ← Complex.ofReal_cos, ← Complex.ofReal_sin]
    have hb : polyEvalAcc f.bCoeffs
        (⟨Real.cos (2 * Real.pi * freq), Real.sin (2 * Real.pi * freq)⟩ : ℂ) 1 =
        ∑ i in Finset.range f.bCoeffs.length,
          (f.bCoeffs.getD i 0 : ℂ) * Complex.exp (2 * Real.pi * freq * Complex.I) ^ i := by
      rw [polyEvalAcc_eq, hz]
      exact Finset.sum_congr rfl fun i _ => by ring
    have ha : polyEvalAcc f.aCoeffs
        (⟨Real.cos (2 * Real.pi * freq), Real.sin (2 * Real.pi * freq)⟩ : ℂ) 1 =
        ∑ i in Finset.range f.aCoeffs.length,
          (f.aCoeffs.getD i 0 : ℂ) * Complex.exp (2 * Real.pi * freq * Complex.I) ^ i := by
      rw [polyEvalAcc_eq, hz]
      exact Finset.sum_congr rfl fun i _ => by ring
    rw [hb, ha]
    by_cases h0 : (∑ i in Finset.range f.aCoeffs.length,
        (f.aCoeffs.getD i 0 : ℂ) * Complex.exp (2 * Real.pi * freq * Complex.I) ^ i) = 0
    · rw [if_pos (by rw [h0]; simp), if_pos h0]
    · rw [if_neg (fun hc => h0 (Complex.ext hc.1 hc.2)), if_neg h0]

/-- Go NewFirstOrderLowPass: panics when fc is outside (0, 0.5); the
bilinear transform with alpha = tan(π·fc) gives b0 = b1 = alpha/(1+alpha)
and a1 = -(1-alpha)/(1+alpha). -/
noncomputable def NewFirstOrderLowPass (fc : ℝ) : GoResult (IIRFilter ℝ) :=
  if fc ≤ 0 ∨ 0.5 ≤ fc then
    .panics "IIRFilter: cutoff frequency must be between 0 and 0.5"
  else
    let alpha := Real.tan (Real.pi * fc)
    NewIIRFilter [alpha / (1 + alpha), alpha / (1 + alpha)]
      [1, -((1 - alpha) / (1 + alpha))]

/-- Go NewFirstOrderHighPass: same guard, with b0 = 1/(1+alpha),
b1 = -b0. -/
noncomputable def NewFirstOrderHighPass (fc : ℝ) : GoResult (IIRFilter ℝ) :=
  if fc ≤ 0 ∨ 0.5 ≤ fc then
    .panics "IIRFilter: cutoff frequency must be between 0 and 0.5"
  else
    let alpha := Real.tan (Real.pi * fc)
    NewIIRFilter [1 / (1 + alpha), -(1 / (1 + alpha))]
      [1, -((1 - alpha) / (1 + alpha))]

/-- Go NewSecondOrderLowPass: panics when fc is outside (0, 0.5) or
Q ≤ 0; RBJ biquad coefficients normalized by a0 = 1 + alpha. -/
noncomputable def NewSecondOrderLowPass (fc Q : ℝ) : GoResult (IIRFilter ℝ) :=
  if fc ≤ 0 ∨ 0.5 ≤ fc then
    .panics "IIRFilter: cutoff frequency must be between 0 and 0.5"
  else if Q ≤ 0 then .panics "IIRFilter: Q must be positive"
  else
    let w0 := 2 * Real.pi * fc
    let alpha := Real.sin w0 / (2 * Q)
    let cosW0 := Real.cos w0
    NewIIRFilter
      [(1 - cosW0) / 2 / (1 + alpha), (1 - cosW0) / (1 + alpha),
       (1 - cosW0) / 2 / (1 + alpha)]
      [1, -2 * cosW0 / (1 + alpha), (1 - alpha) / (1 + alpha)]

/-- Go NewSecondOrderHighPass: same guards, high-pass RBJ numerator. -/
noncomputable def NewSecondOrderHighPass (fc Q : ℝ) : GoResult (IIRFilter ℝ) :=
  if fc ≤ 0 ∨ 0.5 ≤ fc then
    .panics "IIRFilter: cutoff frequency must be between 0 and 0.5"
  else if Q ≤ 0 then .panics "IIRFilter: Q must be positive"
  else
    let w0 := 2 * Real.pi * fc
    let alpha := Real.sin w0 / (2 * Q)
    let cosW0 := Real.cos w0
    NewIIRFilter
      [(1 + cosW0) / 2 / (1 + alpha), -(1 + cosW0) / (1 + alpha),
       (1 + cosW0) / 2 / (1 + alpha)]
      [1, -2 * cosW0 / (1 + alpha), (1 - alpha) / (1 + alpha)]

/-- Go NewSecondOrderBandPass: same guards, band-pass RBJ numerator. -/
noncomputable def NewSecondOrderBandPass (fc Q : ℝ) : GoResult (IIRFilter ℝ) :=
  if fc ≤ 0 ∨ 0.5 ≤ fc then
    .panics "IIRFilter: cutoff frequency must be between 0 and 0.5"
  else if Q ≤ 0 then .panics "IIRFilter: Q must be positive"
  else
    let w0 := 2 * Real.pi * fc
    let alpha := Real.sin w0 / (2 * Q)
    let cosW0 := Real.cos w0
    NewIIRFilter
      [alpha / (1 + alpha), 0, -alpha / (1 + alpha)]
      [1, -2 * cosW0 / (1 + alpha), (1 - alpha) / (1 + alpha)]

/-- Go NewFirstOrderLowPassExp: impulse-invariant exponential form with
alpha = 1 − e^(−2π·fc). -/
noncomputable def NewFirstOrderLowPassExp (fc : ℝ) : GoResult (IIRFilter ℝ) :=
  if fc ≤ 0 ∨ 0.5 ≤ fc then
    .panics "IIRFilter: cutoff frequency must be between 0 and 0.5"
  else
    let alpha := 1 - Real.exp (-2 * Real.pi * fc)
    NewIIRFilter [alpha] [1, -(1 - alpha)]

/-- Go NewFirstOrderHighPassExp: exponential form high-pass. -/
noncomputable def NewFirstOrderHighPassExp (fc : ℝ) : GoResult (IIRFilter ℝ) :=
  if fc ≤ 0 ∨ 0.5 ≤ fc then
    .panics "IIRFilter: cutoff frequency must be between 0 and 0.5"
  else
    let alpha := 1 - Real.exp (-2 * Real.pi * fc)
    NewIIRFilter [(1 + alpha) / 2, -((1 + alpha) / 2)] [1, -(1 - alpha)]

/-- Claim C9 counterexample: the FIR constructor given an empty
coefficient sequence panics (a Go panic aborts the program) and does not
return an error value, contradicting the claim that every construction
validation failure is returned as an InvalidArgument error value. -/
theorem construction_error_counterexample :
    NewFIRFilter ([] : List ℚ) = .panics "FIRFilter: coefficients cannot be empty" ∧
    (NewFIRFilter ([] : List ℚ)).isErr = false := by
  constructor
  · rw [NewFIRFilter, if_pos List.length_nil]
  · rw [NewFIRFilter, if_pos List.length_nil]
    rfl

/-- Claim C9 as amended: every construction-time validation failure of
the FIR/IIR constructors and of the IIR design factories (empty
coefficient sequence, cutoff frequency outside (0, 0.5), non-positive Q)
aborts via panic instead of returning an error value to the caller; no
filter object is produced (only the Goertzel constructor reports its
validation failures as returned error values). -/
theorem construction_failures_panic :
    (∀ (α : Type) [LinearOrderedField α],
        NewFIRFilter ([] : List α) = .panics "FIRFilter: coefficients cannot be empty") ∧
    (∀ (α : Type) [LinearOrderedField α] (a : List α),
        NewIIRFilter ([] : List α) a =
          .panics "IIRFilter: b coefficients cannot be empty") ∧
    (∀ (α : Type) [LinearOrderedField α] (b : List α), b.length ≠ 0 →
        NewIIRFilter b ([] : List α) =
          .panics "IIRFilter: a coefficients cannot be empty") ∧
    (∀ fc : ℝ, fc ≤ 0 ∨ 0.5 ≤ fc →
        NewFirstOrderLowPass fc =
          .panics "IIRFilter: cutoff frequency must be between 0 and 0.5" ∧
        NewFirstOrderHighPass fc =
          .panics "IIRFilter: cutoff frequency must be between 0 and 0.5" ∧
        NewFirstOrderLowPassExp fc =
          .panics "IIRFilter: cutoff frequency must be between 0 and 0.5" ∧
        NewFirstOrderHighPassExp fc =
          .panics "IIRFilter: cutoff frequency must be between 0 and 0.5" ∧
        (∀ Q : ℝ,
          NewSecondOrderLowPass fc Q =
            .panics "IIRFilter: cutoff frequency must be between 0 and 0.5" ∧
          NewSecondOrderHighPass fc Q =
            .panics "IIRFilter: cutoff frequency must be between 0 and 0.5" ∧
          NewSecondOrderBandPass fc Q =
            .panics "IIRFilter: cutoff frequency must be between 0 and 0.5")) ∧
    (∀ fc Q : ℝ, ¬(fc ≤ 0 ∨ 0.5 ≤ fc) → Q ≤ 0 →
        NewSecondOrderLowPass fc Q = .panics "IIRFilter: Q must be positive" ∧
        NewSecondOrderHighPass fc Q = .panics "IIRFilter: Q must be positive" ∧
        NewSecondOrderBandPass fc Q = .panics "IIRFilter: Q must be positive") := by
  refine ⟨fun α _ => ?_, fun α _ a => ?_, fun α _ b hb => ?_,
    fun fc hfc => ⟨?_, ?_, ?_, ?_, fun Q => ⟨?_, ?_, ?_⟩⟩, fun fc Q hfc hq => ⟨?_, ?_, ?_⟩⟩
  · rw [NewFIRFilter, if_pos List.length_nil]
  · rw [NewIIRFilter, if_pos List.length_nil]
  · rw [NewIIRFilter, if_neg hb, if_pos List.length_nil]
  · rw [NewFirstOrderLowPass, if_pos hfc]
  · rw [NewFirstOrderHighPass, if_pos hfc]
  · rw [NewFirstOrderLowPassExp, if_pos hfc]
  · rw [NewFirstOrderHighPassExp, if_pos hfc]
  · rw [NewSecondOrderLowPass, if_pos hfc]
  · rw [NewSecondOrderHighPass, if_pos hfc]
  · rw [NewSecondOrderBandPass, if_pos hfc]
  · rw [NewSecondOrderLowPass, if_neg hfc, if_pos hq]
  · rw [NewSecondOrderHighPass, if_neg hfc, if_pos hq]
  · rw [NewSecondOrderBandPass, if_neg hfc, if_pos hq]

/-- Claim C9 witness: the amended theorem applied to concrete failing
inputs: a non-empty b with empty a, the out-of-range cutoff 0.7, and the
in-range cutoff 0.25 with Q = 0. -/
theorem construction_failures_panic_witness :
    ([(1 : ℚ)].length ≠ 0 ∧
      NewIIRFilter [(1 : ℚ)] ([] : List ℚ) =
        .panics "IIRFilter: a coefficients cannot be empty") ∧
    (((0.7 : ℝ) ≤ 0 ∨ (0.5 : ℝ) ≤ 0.7) ∧
      NewFirstOrderLowPass (0.7 : ℝ) =
        .panics "IIRFilter: cutoff frequency must be between 0 and 0.5") ∧
    (¬((0.25 : ℝ) ≤ 0 ∨ (0.5 : ℝ) ≤ 0.25) ∧ (0 : ℝ) ≤ 0 ∧
      NewSecondOrderLowPass (0.25 : ℝ) 0 = .panics "IIRFilter: Q must be positive") :=
  ⟨⟨by simp, construction_failures_panic.2.2.1 ℚ [1] (by simp)⟩,
   ⟨Or.inr (by norm_num),
    (construction_failures_panic.2.2.2.1 (0.7 : ℝ) (Or.inr (by norm_num))).1⟩,
   ⟨by norm_num, le_refl 0,
    (construction_failures_panic.2.2.2.2 (0.25 : ℝ) 0 (by norm_num) (le_refl 0)).1⟩⟩

end DSP
